import Mathlib

/-!
# Verification of the db_sorcerer ingestion / retrieval pipeline

Shallow embedding of the Python sources of the repository into Lean 4.
Strings manipulated character-by-character by the Python code are modelled
as `List Char`; Python's `str.find`, slicing, `strip`, `split` are given
explicit executable models below.  Stateful components (the Chroma
collection, the `DummyAuthDB` folder table) are modelled by explicit state
passing.  External services (embedding model, reranker, LLM, vector-store
ranking) are parameters of the embedded functions.
-/

namespace DbSorcerer

/-- Python whitespace for `str.strip()` / `str.split()` (the characters the
CPython implementation treats as whitespace that can occur in this code
base). -/
def isWS (c : Char) : Bool :=
  c = ' ' || c = '\t' || c = '\n' || c = '\r' || c = '\x0b' || c = '\x0c'

/-- Python `s.strip()` on a character list: drop whitespace at both ends. -/
def pyStrip (l : List Char) : List Char :=
  ((l.dropWhile isWS).reverse.dropWhile isWS).reverse

/-- Python slice `s[a:b]` for `0 ≤ a ≤ b` (out-of-range indices clamp). -/
def pySub (l : List Char) (a b : Nat) : List Char :=
  (l.drop a).take (b - a)

/-- Python `content.find(pat, start)`: index of the first occurrence of
`pat` at or after `start`, `none` when there is none (Python returns `-1`). -/
def pyFind (content pat : List Char) (start : Nat) : Option Nat :=
  (List.range' start (content.length + 1 - start)).find?
    (fun i => pat.isPrefixOf (content.drop i))

/-- `len(s.split())` in Python: number of maximal runs of non-whitespace
characters.  A run starts at a non-whitespace character whose predecessor
(virtually a blank before the first character) is whitespace. -/
def wordCount (l : List Char) : Nat :=
  (l.zip (' ' :: l)).countP (fun cp => !(isWS cp.1) && isWS cp.2)

/-- A chunk as produced by `FilePostprocessor._split_by_end_sentences`
(fields of the Python dict).  `word_end` is `len(...split()) - 1`, which can
be `-1` in Python, hence `Int`. -/
structure Chunk where
  chunk_index : Nat
  text : List Char
  char_start : Nat
  char_end : Nat
  word_start : Nat
  word_end : Int
deriving Repr, DecidableEq

/-- The main loop of `FilePostprocessor._split_by_end_sentences`: for each
candidate end sentence, locate its first occurrence at or after the cursor
`lastEnd`; when found, emit the chunk `[lastEnd, matchEnd)` with stripped
text (skipping it when the stripped text is empty, which does not advance
the cursor), advance the cursor; after all candidates, emit the non-empty
remainder. -/
def sbesLoop (content : List Char) :
    List (List Char) → Nat → Nat → List Chunk
  | [], lastEnd, idx =>
    if lastEnd < content.length then
      let t := pyStrip (content.drop lastEnd)
      if t = [] then []
      else [⟨idx, t, lastEnd, content.length,
            wordCount (content.take lastEnd), (wordCount content : Int) - 1⟩]
    else []
  | es :: rest, lastEnd, idx =>
    match pyFind content es lastEnd with
    | none => sbesLoop content rest lastEnd idx
    | some pos =>
      let actualEnd := pos + es.length
      let t := pyStrip (pySub content lastEnd actualEnd)
      if t = [] then sbesLoop content rest lastEnd idx
      else ⟨idx, t, lastEnd, actualEnd,
            wordCount (content.take lastEnd),
            (wordCount (content.take actualEnd) : Int) - 1⟩ ::
           sbesLoop content rest actualEnd (idx + 1)

/-- `FilePostprocessor._split_by_end_sentences(content, end_sentences)`:
with no candidates the whole content is one chunk; otherwise the cursor
loop above runs starting at position 0 with chunk index 0. -/
def splitByEndSentences (content : List Char) (endSentences : List (List Char)) :
    List Chunk :=
  if endSentences = [] then
    [⟨0, content, 0, content.length, 0, (wordCount content : Int) - 1⟩]
  else sbesLoop content endSentences 0 0

/-- Ordering relation between two chunks: earlier interval entirely before
the later one, strictly smaller start and strictly smaller index. -/
def IntervalOrd (a b : Chunk) : Prop :=
  a.char_end ≤ b.char_start ∧ a.char_start < b.char_start ∧
    a.chunk_index < b.chunk_index

/-- Loop invariant of `sbesLoop`: every emitted chunk starts at or after the
cursor, is non-degenerate, carries consecutive indices from `idx`, and each
chunk starts where control left the previous one. -/
def ChainedFrom : Nat → Nat → List Chunk → Prop
  | _, _, [] => True
  | le, idx, c :: cs =>
    le ≤ c.char_start ∧ c.char_start < c.char_end ∧ c.chunk_index = idx ∧
      ChainedFrom c.char_end (idx + 1) cs

/-! ## Vector index state (`RAGside/db.py`) and the postprocessor handlers
(`file_postprocessor.py`).  The Chroma collection is modelled as the list of
stored records; the embedding vector (a float array from the external
embedding service) is an opaque `Nat` tag. -/

/-- One record of the `sentences` collection, as written by
`create_data(file_path, start_idx, end_idx, embedding)`. -/
structure IndexRec where
  file_path : String
  start_idx : Nat
  end_idx : Nat
  embedding : Nat
deriving Repr, DecidableEq

/-- The vector index state: the records currently in the collection. -/
abbrev Index : Type := List IndexRec

/-- `db.create_data`: add one record to the collection. -/
def createData (idx : Index) (filePath : String) (startIdx endIdx : Nat)
    (embedding : Nat) : Index :=
  List.append idx [⟨filePath, startIdx, endIdx, embedding⟩]

/-- `db.delete_data`: remove every record whose `file_path` matches. -/
def deleteData (idx : Index) (filePath : String) : Index :=
  List.filter (fun r => !(r.file_path == filePath)) idx

/-- The records of the index belonging to one path (the "index state for
that path"). -/
def restrictTo (filePath : String) (idx : Index) : Index :=
  List.filter (fun r => r.file_path == filePath) idx

/-- A clean slate for a path: the index with every record of that path
removed. -/
def cleanSlate (idx : Index) (filePath : String) : Index :=
  deleteData idx filePath

/-- `FilePostprocessor._chunk_content`: empty or whitespace-only content
yields no chunks; otherwise the content is split at the candidate end
sentences (`allEndSentences` is the concatenation of the small-LLM outputs
over the overlapping coarse windows, a parameter here).  Returns the chunk
texts and the offset records. -/
def chunkContent (content : List Char) (allEndSentences : List (List Char)) :
    List (List Char) × List Chunk :=
  if content = [] ∨ pyStrip content = [] then ([], [])
  else
    let finalChunks := splitByEndSentences content allEndSentences
    (finalChunks.map Chunk.text, finalChunks)

/-- One element of the list built by `FilePostprocessor._process_content`:
an embedding vector paired with its chunk text and offset record. -/
structure EmbRec where
  embedding : Nat
  text : List Char
  offset : Chunk
deriving Repr, DecidableEq

/-- `FilePostprocessor._process_content`: pair the vectors returned by the
embedding service with the chunks via `zip` (which silently truncates to
the shorter list) and attach `offsets[i]`.  In the pipeline `offsets`
always has the same length as `chunks`, so pairing positionally is exactly
Python's `offsets[i]`. -/
def processContent (vectors : List Nat) (chunks : List (List Char))
    (offsets : List Chunk) : List EmbRec :=
  (List.zip (List.zip vectors chunks) offsets).map
    (fun vco => ⟨vco.1.1, vco.1.2, vco.2⟩)

/-- `FilePostprocessor._upload_embeddings`: insert each record via
`create_data` with the offset's `char_start`/`char_end`. -/
def uploadEmbeddings (idx : Index) (filePath : String) (embs : List EmbRec) :
    Index :=
  embs.foldl
    (fun i e => createData i filePath e.offset.char_start e.offset.char_end
      e.embedding) idx

/-- `FilePostprocessor.handle_create`: when the message carries non-empty
content, chunk it, embed the chunks (`embedSvc` models the external
`Embedding` batch call) and upload; otherwise the index is untouched.
No existing records are removed. -/
def handleCreate (embedSvc : List (List Char) → List Nat)
    (endSentences : List (List Char)) (idx : Index) (filePath : String)
    (content : Option (List Char)) : Index :=
  match content with
  | some c =>
    if c = [] then idx
    else
      let co := chunkContent c endSentences
      uploadEmbeddings idx filePath (processContent (embedSvc co.1) co.1 co.2)
  | none => idx

/-- `FilePostprocessor.handle_update`: `delete_data` first (always), then
the same chunk/embed/upload as a create when the content is non-empty. -/
def handleUpdate (embedSvc : List (List Char) → List Nat)
    (endSentences : List (List Char)) (idx : Index) (filePath : String)
    (content : Option (List Char)) : Index :=
  let idx1 := deleteData idx filePath
  match content with
  | some c =>
    if c = [] then idx1
    else
      let co := chunkContent c endSentences
      uploadEmbeddings idx1 filePath (processContent (embedSvc co.1) co.1 co.2)
  | none => idx1

/-- `FilePostprocessor.handle_delete`: remove all records of the path. -/
def handleDelete (idx : Index) (filePath : String) : Index :=
  deleteData idx filePath

/-- A file event as consumed by `FilePostprocessor.process_message`,
carrying the extracted content and the LLM boundary candidates. -/
inductive FileEvent where
  | create (content : Option (List Char)) (endSentences : List (List Char))
  | update (content : Option (List Char)) (endSentences : List (List Char))
  | delete
deriving Repr, DecidableEq

/-- Dispatch of `process_message` to the three handlers. -/
def processEvent (embedSvc : List (List Char) → List Nat) (idx : Index)
    (filePath : String) : FileEvent → Index
  | .create c es => handleCreate embedSvc es idx filePath c
  | .update c es => handleUpdate embedSvc es idx filePath c
  | .delete => handleDelete idx filePath

/-- Whether an event's handler purges the path's records before inserting
(update and delete do, create does not). -/
def purgesFirst : FileEvent → Bool
  | .create _ _ => false
  | .update _ _ => true
  | .delete => true

/-- A concrete embedding service for counterexamples: vector tags
`0, 1, …` for the batch. -/
def embedSvcEx (chunks : List (List Char)) : List Nat :=
  List.range chunks.length

/-! ## Preprocessor event forwarding (`file_preprocessor.py`). -/

/-- The message `FilePreprocessor._process_file_change` pushes downstream
(the fields the claims are about; `status` is absent for unknown event
types). -/
structure ProcessedMessage where
  event_type : String
  content : Option (List Char)
  status : Option String
deriving Repr, DecidableEq

/-- `FilePreprocessor._process_file_change`: the list of messages pushed to
the next node for one incoming watcher message (always exactly one).
`extractedContent` is the result of `_extract_file_content` (`none` models
Python `None`).  The Python truthiness test `if extracted_content:` treats
the empty string as a failure. -/
def processFileChange (eventType : String)
    (extractedContent : Option (List Char)) : List ProcessedMessage :=
  if eventType = "delete" then [⟨eventType, none, some "deleted"⟩]
  else if eventType = "create" ∨ eventType = "update" then
    match extractedContent with
    | some c =>
      if c = [] then [⟨eventType, none, some "extraction_failed"⟩]
      else [⟨eventType, some c, some "processed"⟩]
    | none => [⟨eventType, none, some "extraction_failed"⟩]
  else [⟨eventType, none, none⟩]

/-! ## The authorization metadata DB (`STORAGEside/accessDB.py`).  The
`folder_structure` dict is modelled as an association list (Python dicts
have unique keys and preserve insertion order; the file lists are ordinary
Python lists, mutated by `append` / `remove`). -/

/-- The `folder → [filename, …]` table of `DummyAuthDB`. -/
abbrev FolderStructure : Type := List (String × List String)

/-- Python `folder_name in self.folder_structure` /
`self.folder_structure[folder_name]`: first entry with the key. -/
def lookupFolder (fs : FolderStructure) (k : String) : Option (List String) :=
  (fs.find? (fun e => e.1 == k)).map (fun e => e.2)

/-- `self.folder_structure[folder_name] = v` (in-place list mutation seen
as replacing the entry's value). -/
def setFolder (fs : FolderStructure) (k : String) (v : List String) :
    FolderStructure :=
  fs.map (fun e => if e.1 = k then (k, v) else e)

/-- `DummyAuthDB.add_file_to_folder`: append the filename when the folder
exists and does not already contain it; otherwise only a diagnostic is
printed. -/
def add_file_to_folder (fs : FolderStructure) (folderName fileName : String) :
    FolderStructure :=
  match lookupFolder fs folderName with
  | some files =>
    if fileName ∈ files then fs
    else setFolder fs folderName (files ++ [fileName])
  | none => fs

/-- `DummyAuthDB.remove_file_from_folder`: `list.remove` drops the first
occurrence when the folder exists and contains the filename; otherwise only
a diagnostic is printed. -/
def remove_file_from_folder (fs : FolderStructure)
    (folderName fileName : String) : FolderStructure :=
  match lookupFolder fs folderName with
  | some files =>
    if fileName ∈ files then setFolder fs folderName (files.erase fileName)
    else fs
  | none => fs

/-- Python `s.split(sep)` for a one-character separator, on the character
list (e.g. `"a/b" → ["a","b"]`, `"/a" → ["","a"]`, `"" → [""]`). -/
def splitOnChar (sep : Char) : List Char → List (List Char)
  | [] => [[]]
  | c :: rest =>
    match splitOnChar sep rest with
    | [] => [[]]
    | g :: gs => if c = sep then [] :: g :: gs else (c :: g) :: gs

/-- `sep.join(groups)` on character lists. -/
def intercalateChar (sep : Char) : List (List Char) → List Char
  | [] => []
  | [g] => g
  | g :: gs => g ++ sep :: intercalateChar sep gs

/-- Python `file_path.split('/', 1)` when the path contains a slash:
the folder name and the remainder of the path. -/
def parsePath (p : String) : Option (String × String) :=
  match splitOnChar '/' p.data with
  | [] => none
  | [_] => none
  | f :: rest => some (String.mk f, String.mk (intercalateChar '/' rest))

/-- `DummyAuthDB.update_file_structure`: parse `folder/filename`; `create`
adds, `delete` removes, anything else (or a path without a slash) is a
no-op with a diagnostic. -/
def update_file_structure (fs : FolderStructure) (filePath operation : String) :
    FolderStructure :=
  match parsePath filePath with
  | none => fs
  | some (folderName, fileName) =>
    if operation = "create" then add_file_to_folder fs folderName fileName
    else if operation = "delete" then
      remove_file_from_folder fs folderName fileName
    else fs

/-- The initial `folder_structure` table of `DummyAuthDB.__init__`. -/
def initFolderStructure : FolderStructure :=
  [("confidential",
    ["암시장에서의 달러 환전 유의 공지.pdf",
     "[경제로세상읽기] 왜 그들은 자백을 했을까.pdf"]),
   ("project1", ["newsadded.docx", "전력경제 레포트 (1).pdf"]),
   ("project2", ["뉴스2.hwp", "신문3.pdf"]),
   ("company_events", ["sample.txt", "sample_2.txt"]),
   ("company_important_notice", ["sample_3.txt"]),
   ("company_promotion", ["sample copy.txt"])]

/-! ## Raw-file fetch (`STORAGEside/oracle.py`,
`FileWatcher._process_file_request`) and the text extractor
(`FileProcessor/file_reader.py`, `read_file`).

Paths are modelled as component lists (`pathlib.PurePath.parts` without the
root marker); the on-disk filesystem is a function from *normalized*
component lists (the OS resolves `..`/`.` when a file is opened or
`exists()` is called) to the optional file bytes. -/

/-- OS-level resolution of `.` and `..` components against an absolute
base. -/
def normalizePath (comps : List String) : List String :=
  comps.foldl
    (fun acc c =>
      if c = ".." then acc.dropLast else if c = "." then acc else acc ++ [c])
    []

/-- `os.path.splitext` applied to a final path component: the suffix from
the last dot, unless every character before that dot is itself a dot
(leading dots do not start an extension). -/
def splitextExt (base : List Char) : List Char :=
  let dotIdxs := (List.range base.length).filter
    (fun i => base.getD i ' ' = '.')
  match dotIdxs.getLast? with
  | none => []
  | some p =>
    if (List.range p).all (fun j => base.getD j ' ' = '.') then []
    else base.drop p

/-- `FileWatcher._is_target_file`: lowercased extension of the final
component must be on the allow-list `{.docx, .pdf, .hwp, .txt}`. -/
def isTargetFile (fullPath : List String) : Bool :=
  let ext := String.mk ((splitextExt (fullPath.getLastD "").data).map
    Char.toLower)
  [".docx", ".pdf", ".hwp", ".txt"].contains ext

/-- Response of `_process_file_request` (`file_content` is the raw bytes,
base64 transport encoding omitted as a bijection). -/
inductive FileResponse where
  | success (file_path : List String) (file_content : String)
      (file_size : Nat) (file_name : String)
  | error (msg : String)
deriving Repr, DecidableEq

/-- `FileWatcher._process_file_request`: an empty path is rejected; an
absolute request must have the watch folder's parts as a lexical prefix
(`Path.relative_to`, else the out-of-root error); the (possibly relative)
remainder is joined to the watch folder *without resolving `..`*; then the
existence check (against the real, normalized filesystem), the extension
allow-list, and the read. -/
def processFileRequest (fs : List String → Option String)
    (watchFolder : List String) (reqIsAbs : Bool) (reqComps : List String) :
    FileResponse :=
  if reqIsAbs = false ∧ reqComps = [] then .error "파일 경로가 필요합니다"
  else
    match (if reqIsAbs then
            (if List.isPrefixOf watchFolder reqComps then
              some (reqComps.drop watchFolder.length)
            else none)
          else some reqComps) with
    | none => .error "watch_folder 외부 파일에는 접근할 수 없습니다"
    | some rel =>
      let fullPath := watchFolder ++ rel
      match fs (normalizePath fullPath) with
      | none => .error "파일을 찾을 수 없습니다"
      | some content =>
        if isTargetFile fullPath then
          .success fullPath content content.length (fullPath.getLastD "")
        else .error "지원하지 않는 파일 형식입니다"

/-- The lowercased `os.path.splitext` extension of a path, as computed at
the top of `read_file`. -/
def extOf (filePath : String) : String :=
  String.mk ((splitextExt ((splitOnChar '/' filePath.data).getLastD [])).map
    Char.toLower)

/-- `read_file` of `FileProcessor/file_reader.py`.  The external parsers
and decoders are parameters returning `none` when they raise.  The whole
dispatch body sits in a `try/except Exception` that returns `""`:
a cp949 retry failure, a parser failure, the `.hwp` branch (whose `Hwp`
name is undefined, an unconditional `NameError`) and the unsupported-
extension `ValueError` all fall into that handler.  Only the existence
check precedes the `try`, so `FileNotFoundError` is the sole escaping
exception, modelled as `Except.error`. -/
def readFile (existsFs : String → Bool)
    (utf8Dec cp949Dec docxParse pdfParse : String → Option String)
    (filePath : String) : Except String String :=
  if existsFs filePath = false then Except.error "FileNotFoundError"
  else
    if extOf filePath = ".txt" then
      match utf8Dec filePath with
      | some s => Except.ok s
      | none =>
        match cp949Dec filePath with
        | some s => Except.ok s
        | none => Except.ok ""
    else if extOf filePath = ".docx" then
      match docxParse filePath with
      | some s => Except.ok s
      | none => Except.ok ""
    else if extOf filePath = ".pdf" then
      match pdfParse filePath with
      | some s => Except.ok s
      | none => Except.ok ""
    else if extOf filePath = ".hwp" then Except.ok ""
    else Except.ok ""

/-! ## Authorized vector search (`RAGside/db.py` `search_data`,
`RAGside/retriever.py` `FileRetriever.search_chunks`) and the retrieval
agent loop (`RAGside/agent.py` `RAGAgent.process`).

The Chroma backend's similarity ranking is the `select` parameter (it may
reorder and drop filtered records arbitrarily); the embedding model, the
file-content fetch, the reranker and the structured LLM are parameters. -/

/-- A record as returned by `db.search_data` (a
`(file_path, start_idx, end_idx)` tuple from the stored metadata). -/
structure DbRec where
  file_path : String
  start_idx : Nat
  end_idx : Nat
deriving Repr, DecidableEq

/-- `db.search_data(query_embedding, n_results, pathlist)`: with a truthy
`pathlist` the collection is queried with the `$in` metadata filter — the
backend ranks the *filtered* records (`select`) and returns at most
`nResults` of them; with `None` or an empty pathlist the function returns
`[]` without querying. -/
def search_data (select : List Int → List DbRec → List DbRec)
    (collection : List DbRec) (queryEmbedding : List Int) (nResults : Nat)
    (pathlist : Option (List String)) : List DbRec :=
  match pathlist with
  | some pl =>
    if pl = [] then []
    else
      (select queryEmbedding
        (collection.filter (fun r => pl.contains r.file_path))).take nResults
  | none => []

/-- `os.path.basename` (POSIX): the final `/`-separated component. -/
def basename (p : String) : String :=
  String.mk ((splitOnChar '/' p.data).getLastD [])

/-- An entry of the retriever's intermediate `chunk_data` list. -/
structure ChunkData where
  text : List Char
  file_name : String
  file_path : String
deriving Repr, DecidableEq

/-- A final `search_chunks` result item (`{'text': …, 'file_name': …}`). -/
structure OutChunk where
  text : List Char
  file_name : String
deriving Repr, DecidableEq

/-- `FileRetriever._extract_chunk_text`: fetch the file's extracted text
and slice `[start_pos:end_pos]`; `None` when the fetch fails or the content
is falsy. -/
def extractChunkText (getContent : String → Option (List Char))
    (filePath : String) (startPos endPos : Nat) : Option (List Char) :=
  match getContent filePath with
  | some content =>
    if content = [] then none else some (pySub content startPos endPos)
  | none => none

/-- The `chunk_data` construction of `search_chunks` step 4: keep the
records whose chunk text extraction yields truthy text, with the basename
as `file_name` and the `file_path` retained for reranking. -/
def buildChunkData (getContent : String → Option (List Char))
    (similar : List DbRec) : List ChunkData :=
  similar.filterMap (fun r =>
    match extractChunkText getContent r.file_path r.start_idx r.end_idx with
    | some t =>
      if t = [] then none else some ⟨t, basename r.file_path, r.file_path⟩
    | none => none)

/-- `FileRetriever.search_chunks`, also reporting whether the vector index
was queried (second component).  Steps: query embedding (falsy → `[]`),
oracle allow-list (empty → `[]` before any index query), `search_data`
with `n_results = 2·top_n`, the no-results sentinel, `chunk_data`, and
reranking (each reranked document is matched back to the first `chunk_data`
entry with equal text; a reranker exception falls back to the first `top_n`
entries in original order). -/
def searchChunksT (queryEmbedding : Option (List Int))
    (pathlist : List String) (select : List Int → List DbRec → List DbRec)
    (collection : List DbRec) (getContent : String → Option (List Char))
    (rerank : List (List Char) → Option (List (List Char))) (topN : Nat) :
    List OutChunk × Bool :=
  match queryEmbedding with
  | none => ([], false)
  | some q =>
    if q = [] then ([], false)
    else if pathlist = [] then ([], false)
    else
      let similar := search_data select collection q (topN * 2) (some pathlist)
      if similar = [] then ([⟨"검색된 문서가 없습니다".toList, ""⟩], true)
      else
        let cd := buildChunkData getContent similar
        if cd = [] then ([], true)
        else
          match rerank (cd.map (fun c => c.text)) with
          | some reranked =>
            (reranked.filterMap (fun rt =>
              (cd.find? (fun ci => ci.text == rt)).map
                (fun ci => ⟨ci.text, ci.file_name⟩)), true)
          | none => ((cd.take topN).map (fun ci => ⟨ci.text, ci.file_name⟩),
              true)

/-- The parsed structured-LLM output of the agent
(`{llm_output, continue_iterate, search_query}`). -/
structure Decision where
  llm_output : String
  continue_iterate : Bool
  search_query : String
deriving Repr, DecidableEq

/-- Python `s.strip()` on a `str`. -/
def pyStripStr (s : String) : String := String.mk (pyStrip s.data)

/-- `RAGAgent._get_max_iterations`: `modes.get(mode, 3)`. -/
def maxIterations (mode : String) : Nat :=
  if mode = "normal" then 1
  else if mode = "deep" then 3
  else if mode = "deeper" then 5
  else 3

/-- The degraded answer returned when the LLM fails on the final
iteration: a fixed prefix plus `accumulated_context[:500]` and `"..."`. -/
def degradedAnswer (ctx : String) : String :=
  "수집된 정보를 바탕으로 답변드리기 어렵습니다. 검색된 정보: " ++
    String.mk (pySub ctx.data 0 500) ++ "..."

/-- The `while` loop of `RAGAgent.process`, with explicit state: remaining
iterations (`fuel`, initially `max_iterations`), completed iterations,
current query, accumulated context, whether any search touched the index,
and the number of structured-LLM calls so far.  A non-empty search result
raises `TypeError` in the Python code (`"\n".join` over a list of dicts,
outside the `try`), modelled as `Except.error`; an LLM exception
(`none`) retries the next iteration with the same query, or returns the
degraded answer on the final one.  The post-loop return models the
`return` after the `while`. -/
def processLoop (mode : String) (llm : Nat → Option Decision)
    (searchFn : String → List OutChunk × Bool) (userInput : String) :
    Nat → Nat → String → String → Bool → Nat →
      Except String (String × Bool × Nat)
  | 0, _, _, _, db, calls =>
    Except.ok ("예상치 못한 오류가 발생했습니다.", db, calls)
  | fuel + 1, it, query, ctx, db, calls =>
    match searchFn query with
    | (results, touched) =>
      if results ≠ [] then Except.error "TypeError"
      else
        match llm (it + 1) with
        | some d =>
          if mode = "normal" then
            Except.ok (d.llm_output, db || touched, calls + 1)
          else if it + 1 = maxIterations mode ∨ d.continue_iterate = false then
            Except.ok (d.llm_output, db || touched, calls + 1)
          else
            processLoop mode llm searchFn userInput fuel (it + 1)
              (if pyStripStr d.search_query = "" then userInput
               else pyStripStr d.search_query)
              ctx (db || touched) (calls + 1)
        | none =>
          if it + 1 = maxIterations mode then
            Except.ok (degradedAnswer ctx, db || touched, calls + 1)
          else
            processLoop mode llm searchFn userInput fuel (it + 1) query ctx
              (db || touched) (calls + 1)

/-- `RAGAgent.process`: run the loop from a fresh state with the user's
input as the first search query. -/
def process (mode : String) (llm : Nat → Option Decision)
    (searchFn : String → List OutChunk × Bool) (userInput : String) :
    Except String (String × Bool × Nat) :=
  processLoop mode llm searchFn userInput (maxIterations mode) 0 userInput ""
    false 0

example :
    splitByEndSentences "ab. cd. e".toList ["ab.".toList, "cd.".toList] =
      [⟨0, "ab.".toList, 0, 3, 0, 0⟩,
       ⟨1, "cd.".toList, 3, 7, 1, 1⟩,
       ⟨2, "e".toList, 7, 9, 2, 2⟩] := by decide

example :
    splitByEndSentences " ab".toList ["ab".toList] =
      [⟨0, "ab".toList, 0, 3, 0, 0⟩] := by decide

lemma pyStrip_nil : pyStrip [] = [] := rfl

lemma ne_nil_of_pyStrip_ne_nil {l : List Char} (h : pyStrip l ≠ []) : l ≠ [] := by
  intro hl
  exact h (hl ▸ pyStrip_nil)

lemma lt_of_pySub_ne_nil {l : List Char} {a b : Nat}
    (h : pySub l a b ≠ []) : a < b := by
  by_contra hab
  apply h
  unfold pySub
  have : b - a = 0 := Nat.sub_eq_zero_of_le (Nat.le_of_not_lt hab)
  simp [this]

lemma chainedFrom_bounds :
    ∀ (cs : List Chunk) (le idx : Nat), ChainedFrom le idx cs →
      ∀ c ∈ cs, le ≤ c.char_start ∧ c.char_start < c.char_end ∧
        idx ≤ c.chunk_index := by
  intro cs
  induction cs with
  | nil => intro le idx _ c hc; cases hc
  | cons a as ih =>
    intro le idx h c hc
    obtain ⟨hle, hlt, hidx, htail⟩ := h
    rcases List.mem_cons.mp hc with hc | hc
    · subst hc; exact ⟨hle, hlt, hidx ▸ Nat.le_refl _⟩
    · obtain ⟨h1, h2, h3⟩ := ih a.char_end (idx + 1) htail c hc
      exact ⟨Nat.le_trans hle (Nat.le_trans (Nat.le_of_lt hlt) h1),
             h2, Nat.le_trans (hidx ▸ Nat.le_succ idx) h3⟩

lemma chainedFrom_pairwise :
    ∀ (cs : List Chunk) (le idx : Nat), ChainedFrom le idx cs →
      cs.Pairwise IntervalOrd := by
  intro cs
  induction cs with
  | nil => intro le idx _; exact List.Pairwise.nil
  | cons a as ih =>
    intro le idx h
    obtain ⟨hle, hlt, hidx, htail⟩ := h
    refine List.Pairwise.cons ?_ (ih a.char_end (idx + 1) htail)
    intro b hb
    obtain ⟨h1, h2, h3⟩ := chainedFrom_bounds as a.char_end (idx + 1) htail b hb
    refine ⟨h1, Nat.lt_of_lt_of_le hlt h1, ?_⟩
    calc a.chunk_index = idx := hidx
    _ < idx + 1 := Nat.lt_succ_self idx
    _ ≤ b.chunk_index := h3

lemma sbesLoop_chained (content : List Char) :
    ∀ (es : List (List Char)) (le idx : Nat),
      ChainedFrom le idx (sbesLoop content es le idx) := by
  intro es
  induction es with
  | nil =>
    intro le idx
    unfold sbesLoop
    by_cases hlt : le < content.length
    · simp only [hlt, if_true]
      by_cases ht : pyStrip (content.drop le) = []
      · simp [ht, ChainedFrom]
      · simp only [ht, if_neg]
        exact ⟨Nat.le_refl _, hlt, rfl, trivial⟩
    · simp [hlt, ChainedFrom]
  | cons e rest ih =>
    intro le idx
    unfold sbesLoop
    cases hfind : pyFind content e le with
    | none => exact ih le idx
    | some pos =>
      by_cases ht : pyStrip (pySub content le (pos + e.length)) = []
      · simp only [ht, if_pos]
        exact ih le idx
      · simp only [ht, if_neg]
        have hlt : le < pos + e.length :=
          lt_of_pySub_ne_nil (ne_nil_of_pyStrip_ne_nil ht)
        exact ⟨Nat.le_refl _, hlt, rfl, ih (pos + e.length) (idx + 1)⟩

lemma sbesLoop_text (content : List Char) :
    ∀ (es : List (List Char)) (le idx : Nat) (c : Chunk),
      c ∈ sbesLoop content es le idx →
      c.text = pyStrip (pySub content c.char_start c.char_end) := by
  intro es
  induction es with
  | nil =>
    intro le idx c hc
    unfold sbesLoop at hc
    by_cases hlt : le < content.length
    · rw [if_pos hlt] at hc
      by_cases ht : pyStrip (content.drop le) = []
      · rw [if_pos ht] at hc; cases hc
      · rw [if_neg ht] at hc
        have hc2 := List.mem_singleton.mp hc
        subst hc2
        simp only
        congr 1
        unfold pySub
        rw [show content.length - le = (content.drop le).length from
              (List.length_drop le content).symm,
            List.take_length]
    · rw [if_neg hlt] at hc; cases hc
  | cons e rest ih =>
    intro le idx c hc
    unfold sbesLoop at hc
    cases hfind : pyFind content e le with
    | none =>
      simp only [hfind] at hc
      exact ih le idx c hc
    | some pos =>
      simp only [hfind] at hc
      by_cases ht : pyStrip (pySub content le (pos + e.length)) = []
      · rw [if_pos ht] at hc
        exact ih le idx c hc
      · rw [if_neg ht] at hc
        rcases List.mem_cons.mp hc with hc | hc
        · subst hc; rfl
        · exact ih (pos + e.length) (idx + 1) c hc

/-- C8: for every content string and every candidate end-sentence list, the
chunks produced by `_split_by_end_sentences` have pairwise disjoint
`[char_start, char_end)` intervals (each interval ends at or before the next
begins, and every interval is well-formed), `char_start` is strictly
increasing, and `chunk_index` is strictly increasing along with it; a
located duplicate candidate only advances the cursor forward, so no two
chunks overlap. -/
theorem C8_chunk_intervals_disjoint_and_index_monotone
    (content : List Char) (endSentences : List (List Char)) :
    (splitByEndSentences content endSentences).Pairwise IntervalOrd ∧
    ∀ c ∈ splitByEndSentences content endSentences,
      c.char_start ≤ c.char_end := by
  constructor
  · unfold splitByEndSentences
    by_cases hes : endSentences = []
    · rw [if_pos hes]
      exact List.pairwise_singleton _ _
    · rw [if_neg hes]
      exact chainedFrom_pairwise _ 0 0 (sbesLoop_chained content endSentences 0 0)
  · intro c hc
    unfold splitByEndSentences at hc
    by_cases hes : endSentences = []
    · rw [if_pos hes] at hc
      have hc2 := List.mem_singleton.mp hc
      subst hc2
      exact Nat.zero_le _
    · rw [if_neg hes] at hc
      have h := chainedFrom_bounds _ 0 0
        (sbesLoop_chained content endSentences 0 0) c hc
      exact Nat.le_of_lt h.2.1

/-- Witness for C8 at a concrete input, discharging the membership
hypothesis of the second conjunct. -/
theorem C8_witness :
    (splitByEndSentences " ab".toList ["ab".toList]).Pairwise IntervalOrd ∧
    (⟨0, "ab".toList, 0, 3, 0, 0⟩ : Chunk).char_start ≤
      (⟨0, "ab".toList, 0, 3, 0, 0⟩ : Chunk).char_end :=
  ⟨(C8_chunk_intervals_disjoint_and_index_monotone " ab".toList ["ab".toList]).1,
   (C8_chunk_intervals_disjoint_and_index_monotone " ab".toList ["ab".toList]).2
     ⟨0, "ab".toList, 0, 3, 0, 0⟩ (by decide)⟩

/-- C3 counterexample: the claim "the chunk's stored text equals the exact
substring `content[char_start:char_end]`" is false: on content `" ab"` with
candidate end sentence `"ab"`, the produced chunk spans `[0, 3)` but stores
the stripped text `"ab"`, not the substring `" ab"`. -/
theorem C3_counterexample_text_ne_substring :
    ¬ (∀ c ∈ splitByEndSentences " ab".toList ["ab".toList],
        c.text = pySub " ab".toList c.char_start c.char_end) := by decide

/-- C3 amended: every chunk's stored text equals the *stripped* substring
`content[char_start:char_end].strip()`; only in the degenerate branch with
no candidate end sentences is the text the exact (unstripped) substring,
namely the whole content. -/
theorem C3_amended_chunk_text_is_trimmed_substring :
    ∀ (content : List Char) (endSentences : List (List Char)) (c : Chunk),
      c ∈ splitByEndSentences content endSentences →
      c.text = pyStrip (pySub content c.char_start c.char_end) ∨
      (endSentences = [] ∧
        c.text = pySub content c.char_start c.char_end) := by
  intro content endSentences c hc
  unfold splitByEndSentences at hc
  by_cases hes : endSentences = []
  · rw [if_pos hes] at hc
    have hc2 := List.mem_singleton.mp hc
    subst hc2
    right
    refine ⟨hes, ?_⟩
    simp only
    unfold pySub
    simp [List.take_length]
  · rw [if_neg hes] at hc
    exact Or.inl (sbesLoop_text content endSentences 0 0 c hc)

/-- Witness for the amended C3 at a concrete input. -/
theorem C3_amended_witness :
    (⟨0, "ab".toList, 0, 3, 0, 0⟩ : Chunk).text =
      pyStrip (pySub " ab".toList 0 3) ∨
    (["ab".toList] = ([] : List (List Char)) ∧
      (⟨0, "ab".toList, 0, 3, 0, 0⟩ : Chunk).text = pySub " ab".toList 0 3) :=
  C3_amended_chunk_text_is_trimmed_substring " ab".toList ["ab".toList]
    ⟨0, "ab".toList, 0, 3, 0, 0⟩ (by decide)

lemma uploadEmbeddings_eq :
    ∀ (embs : List EmbRec) (idx : Index) (filePath : String),
      uploadEmbeddings idx filePath embs =
        List.append idx (embs.map (fun e =>
          ⟨filePath, e.offset.char_start, e.offset.char_end, e.embedding⟩)) := by
  intro embs
  induction embs with
  | nil => intro idx filePath; simp [uploadEmbeddings]
  | cons e es ih =>
    intro idx filePath
    simp only [uploadEmbeddings, List.foldl_cons, List.map_cons]
    rw [show (List.foldl _ (createData idx filePath e.offset.char_start
          e.offset.char_end e.embedding) es : Index) =
        uploadEmbeddings (createData idx filePath e.offset.char_start
          e.offset.char_end e.embedding) filePath es from rfl,
      ih]
    simp [createData, List.append_assoc]

lemma restrictTo_deleteData (filePath : String) (idx : Index) :
    restrictTo filePath (deleteData idx filePath) = [] := by
  unfold restrictTo deleteData
  rw [List.filter_filter]
  have h : ∀ r : IndexRec,
      ((r.file_path == filePath) && !(r.file_path == filePath)) = false := by
    intro r; cases r.file_path == filePath <;> rfl
  simp [h]

lemma restrictTo_uploadEmbeddings (filePath : String) (idx : Index)
    (embs : List EmbRec) :
    restrictTo filePath (uploadEmbeddings idx filePath embs) =
      List.append (restrictTo filePath idx) (embs.map (fun e =>
        ⟨filePath, e.offset.char_start, e.offset.char_end, e.embedding⟩)) := by
  rw [uploadEmbeddings_eq]
  unfold restrictTo
  rw [show List.append idx _ = idx ++ _ from rfl, List.filter_append]
  congr 1
  apply List.filter_eq_self.mpr
  intro a ha
  obtain ⟨e, _, he⟩ := List.mem_map.mp ha
  subst he
  simp

lemma restrict_processEvent_purge
    (embedSvc : List (List Char) → List Nat) (filePath : String)
    (e2 : FileEvent) (h : purgesFirst e2 = true) :
    ∀ S T : Index,
      restrictTo filePath (processEvent embedSvc S filePath e2) =
        restrictTo filePath (processEvent embedSvc T filePath e2) := by
  intro S T
  cases e2 with
  | create c es => simp [purgesFirst] at h
  | delete =>
    simp only [processEvent, handleDelete]
    rw [restrictTo_deleteData, restrictTo_deleteData]
  | update c es =>
    cases c with
    | none =>
      simp only [processEvent, handleUpdate]
      rw [restrictTo_deleteData, restrictTo_deleteData]
    | some c =>
      simp only [processEvent, handleUpdate]
      by_cases hc : c = []
      · rw [if_pos hc, if_pos hc, restrictTo_deleteData, restrictTo_deleteData]
      · rw [if_neg hc, if_neg hc, restrictTo_uploadEmbeddings,
          restrictTo_uploadEmbeddings, restrictTo_deleteData,
          restrictTo_deleteData]

/-- C5 counterexample: two events on the same path where the second is a
`create` violate the clean-slate law — `handle_create` inserts without
removing the prior generation, so after `create "ab"` then `create "abc"`
the path holds both generations, while on a clean slate it holds only the
second. -/
theorem C5_counterexample_create_does_not_purge :
    restrictTo "f.txt"
      (processEvent embedSvcEx
        (processEvent embedSvcEx [] "f.txt"
          (FileEvent.create (some "ab".toList) ["ab".toList]))
        "f.txt" (FileEvent.create (some "abc".toList) ["abc".toList])) ≠
    restrictTo "f.txt"
      (processEvent embedSvcEx (cleanSlate [] "f.txt") "f.txt"
        (FileEvent.create (some "abc".toList) ["abc".toList])) := by decide

/-- C5 amended: the clean-slate law holds whenever the second event is an
`update` or a `delete` — both purge every record of the path before any
insertion, so the path's index state after `e1; e2` equals its state after
`e2` alone on a clean slate; and an update is exactly delete-then-insert
(`handle_update` = `delete_data` followed by the create insertion).  For a
second `create` the law fails (see the counterexample). -/
theorem C5_amended_clean_slate_for_update_and_delete :
    ∀ (embedSvc : List (List Char) → List Nat) (idx : Index)
      (filePath : String) (e1 e2 : FileEvent),
      purgesFirst e2 = true →
      restrictTo filePath
        (processEvent embedSvc (processEvent embedSvc idx filePath e1)
          filePath e2) =
      restrictTo filePath
        (processEvent embedSvc (cleanSlate idx filePath) filePath e2) ∧
      ∀ (c : Option (List Char)) (es : List (List Char)),
        handleUpdate embedSvc es idx filePath c =
          handleCreate embedSvc es (deleteData idx filePath) filePath c := by
  intro embedSvc idx filePath e1 e2 h
  constructor
  · exact restrict_processEvent_purge embedSvc filePath e2 h
      (processEvent embedSvc idx filePath e1) (cleanSlate idx filePath)
  · intro c es
    cases c with
    | none => rfl
    | some c => rfl

/-- Witness for the amended C5 at concrete inputs. -/
theorem C5_amended_witness :
    (restrictTo "f.txt"
      (processEvent embedSvcEx
        (processEvent embedSvcEx [] "f.txt"
          (FileEvent.create (some "ab".toList) ["ab".toList]))
        "f.txt" FileEvent.delete) =
    restrictTo "f.txt"
      (processEvent embedSvcEx (cleanSlate [] "f.txt") "f.txt"
        FileEvent.delete)) ∧
    ∀ (c : Option (List Char)) (es : List (List Char)),
      handleUpdate embedSvcEx es [] "f.txt" c =
        handleCreate embedSvcEx es (deleteData [] "f.txt") "f.txt" c :=
  ⟨(C5_amended_clean_slate_for_update_and_delete embedSvcEx []
      "f.txt" (FileEvent.create (some "ab".toList) ["ab".toList])
      FileEvent.delete (by decide)).1,
   (C5_amended_clean_slate_for_update_and_delete embedSvcEx []
      "f.txt" (FileEvent.create (some "ab".toList) ["ab".toList])
      FileEvent.delete (by decide)).2⟩

/-- C9 counterexample: with two chunks but only one returned vector,
`_process_content` silently truncates the pairing (Python `zip`) and
`_upload_embeddings` uploads the resulting partial record — processing does
not fail. -/
theorem C9_counterexample_truncated_pairing_uploaded :
    processContent [5] ["ab".toList, "cd".toList]
        [⟨0, "ab".toList, 0, 2, 0, 0⟩, ⟨1, "cd".toList, 3, 5, 1, 1⟩] =
      [⟨5, "ab".toList, ⟨0, "ab".toList, 0, 2, 0, 0⟩⟩] ∧
    uploadEmbeddings [] "f.txt"
      (processContent [5] ["ab".toList, "cd".toList]
        [⟨0, "ab".toList, 0, 2, 0, 0⟩, ⟨1, "cd".toList, 3, 5, 1, 1⟩]) =
      [⟨"f.txt", 0, 2, 5⟩] := by decide

/-- C9 amended: a count mismatch between the embedding service's vectors
and the chunks is not detected: the pairing is truncated to the shorter of
the two lists, and every record of the (possibly partial) truncated pairing
is uploaded to the index, with no error. -/
theorem C9_amended_mismatch_truncates_and_uploads :
    ∀ (vectors : List Nat) (chunks : List (List Char)) (offsets : List Chunk)
      (idx : Index) (filePath : String),
      offsets.length = chunks.length →
      (processContent vectors chunks offsets).length =
        min vectors.length chunks.length ∧
      uploadEmbeddings idx filePath (processContent vectors chunks offsets) =
        List.append idx ((processContent vectors chunks offsets).map
          (fun e => ⟨filePath, e.offset.char_start, e.offset.char_end,
            e.embedding⟩)) := by
  intro vectors chunks offsets idx filePath hlen
  constructor
  · simp only [processContent, List.length_map, List.length_zip, hlen]
    omega
  · exact uploadEmbeddings_eq _ idx filePath

/-- Witness for the amended C9 at concrete inputs. -/
theorem C9_amended_witness :
    (processContent [5] ["ab".toList, "cd".toList]
        [⟨0, "ab".toList, 0, 2, 0, 0⟩, ⟨1, "cd".toList, 3, 5, 1, 1⟩]).length =
      min 1 2 ∧
    uploadEmbeddings [] "f.txt"
      (processContent [5] ["ab".toList, "cd".toList]
        [⟨0, "ab".toList, 0, 2, 0, 0⟩, ⟨1, "cd".toList, 3, 5, 1, 1⟩]) =
      List.append [] ((processContent [5] ["ab".toList, "cd".toList]
        [⟨0, "ab".toList, 0, 2, 0, 0⟩, ⟨1, "cd".toList, 3, 5, 1, 1⟩]).map
          (fun e => ⟨"f.txt", e.offset.char_start, e.offset.char_end,
            e.embedding⟩)) :=
  C9_amended_mismatch_truncates_and_uploads [5]
    ["ab".toList, "cd".toList]
    [⟨0, "ab".toList, 0, 2, 0, 0⟩, ⟨1, "cd".toList, 3, 5, 1, 1⟩]
    [] "f.txt" (by decide)

/-- C6 counterexample: for an empty file the preprocessor's truthiness test
`if extracted_content:` treats the extracted empty string as a failure, so
the single forwarded create message carries `content=None` with
`status='extraction_failed'` — not `content=""` as claimed. -/
theorem C6_counterexample_empty_content_not_forwarded :
    processFileChange "create" (some []) =
      [⟨"create", none, some "extraction_failed"⟩] ∧
    (∀ m ∈ processFileChange "create" (some []),
      m.content ≠ some ("".toList)) := by decide

/-- C6 amended: for an empty file of a supported kind exactly one create
message is forwarded, but with `content=None` and
`status='extraction_failed'` (the empty extracted text fails the Python
truthiness test); the postprocessor produces zero chunks for empty content
and inserts no embedding records (the index is untouched both for a `None`
and for an empty content). -/
theorem C6_amended_empty_file_one_event_no_records :
    ∀ (embedSvc : List (List Char) → List Nat) (es : List (List Char))
      (idx : Index) (filePath : String),
      (processFileChange "create" (some [])).length = 1 ∧
      (∀ m ∈ processFileChange "create" (some []),
        m.event_type = "create" ∧ m.content = none ∧
          m.status = some "extraction_failed") ∧
      chunkContent [] es = ([], []) ∧
      handleCreate embedSvc es idx filePath none = idx ∧
      handleCreate embedSvc es idx filePath (some []) = idx := by
  intro embedSvc es idx filePath
  refine ⟨by decide, by decide, ?_, rfl, ?_⟩
  · simp [chunkContent]
  · simp [handleCreate]

/-- Witness for the amended C6 at concrete inputs, discharging the
membership hypothesis. -/
theorem C6_amended_witness :
    ((⟨"create", none, some "extraction_failed"⟩ :
        ProcessedMessage).event_type = "create" ∧
     (⟨"create", none, some "extraction_failed"⟩ :
        ProcessedMessage).content = none ∧
     (⟨"create", none, some "extraction_failed"⟩ :
        ProcessedMessage).status = some "extraction_failed") ∧
    handleCreate embedSvcEx [] [] "f.txt" (some []) = [] :=
  ⟨(C6_amended_empty_file_one_event_no_records embedSvcEx [] [] "f.txt").2.1
      ⟨"create", none, some "extraction_failed"⟩ (by decide),
   (C6_amended_empty_file_one_event_no_records embedSvcEx [] []
      "f.txt").2.2.2.2⟩

lemma lookupFolder_setFolder :
    ∀ (fs : FolderStructure) (k : String) (v files : List String),
      lookupFolder fs k = some files →
      lookupFolder (setFolder fs k v) k = some v := by
  intro fs
  induction fs with
  | nil => intro k v files h; simp [lookupFolder] at h
  | cons e fs ih =>
    intro k v files h
    by_cases hk : e.1 = k
    · simp only [setFolder, List.map_cons, if_pos hk]
      unfold lookupFolder
      rw [List.find?_cons_of_pos _ (by simp)]
      rfl
    · simp only [setFolder, List.map_cons, if_neg hk]
      unfold lookupFolder at h ⊢
      rw [List.find?_cons_of_neg _ (by simp [hk])] at h
      rw [List.find?_cons_of_neg _ (by simp [hk])]
      exact ih k v files h

lemma setFolder_setFolder :
    ∀ (fs : FolderStructure) (k : String) (v w : List String),
      setFolder (setFolder fs k v) k w = setFolder fs k w := by
  intro fs k v w
  unfold setFolder
  rw [List.map_map]
  apply List.map_congr_left
  intro e _
  by_cases hk : e.1 = k
  · simp [Function.comp, hk]
  · simp [Function.comp, hk]

lemma setFolder_not_mem :
    ∀ (fs : FolderStructure) (k : String) (v : List String),
      k ∉ fs.map Prod.fst → setFolder fs k v = fs := by
  intro fs k v h
  unfold setFolder
  conv_rhs => rw [← List.map_id fs]
  apply List.map_congr_left
  intro e he
  have hek : e.1 ≠ k := by
    intro hek
    exact h (hek ▸ List.mem_map_of_mem _ he)
  simp [hek]

lemma setFolder_self :
    ∀ (fs : FolderStructure) (k : String) (v : List String),
      (fs.map Prod.fst).Nodup → lookupFolder fs k = some v →
      setFolder fs k v = fs := by
  intro fs
  induction fs with
  | nil => intro k v _ h; simp [lookupFolder] at h
  | cons e fs ih =>
    intro k v hnd h
    simp only [List.map_cons, List.nodup_cons] at hnd
    by_cases hk : e.1 = k
    · unfold lookupFolder at h
      rw [List.find?_cons_of_pos _ (by simp [hk])] at h
      simp at h
      have h2 : setFolder (e :: fs) k v = (k, v) :: setFolder fs k v := by
        simp only [setFolder, List.map_cons, if_pos hk]
      rw [h2, setFolder_not_mem fs k v (hk ▸ hnd.1), ← h, ← hk]
    · unfold lookupFolder at h
      rw [List.find?_cons_of_neg _ (by simp [hk])] at h
      simp only [setFolder, List.map_cons, if_neg hk]
      have := ih k v hnd.2 h
      simp only [setFolder] at this
      rw [this]

/-- C7 counterexample: on the initial `DummyAuthDB` table,
`update_structure("project1/newsadded.docx", create)` is a no-op (the file
already exists) but the subsequent `delete` removes the file, so the pair
does not restore the prior folder index. -/
theorem C7_counterexample_existing_file_deleted :
    update_file_structure
      (update_file_structure initFolderStructure
        "project1/newsadded.docx" "create")
      "project1/newsadded.docx" "delete" ≠ initFolderStructure := by decide

/-- C7 amended: `update_structure(p, create)` followed by
`update_structure(p, delete)` restores the folder table exactly whenever
the parsed filename is not already present in the parsed folder (in
particular when the folder is absent or `p` has no slash); when the file
is already present, the create is a no-op and the delete removes it. -/
theorem C7_amended_create_then_delete_restores_when_absent :
    ∀ (fs : FolderStructure) (p : String),
      (fs.map Prod.fst).Nodup →
      (match parsePath p with
       | none => True
       | some fn =>
         match lookupFolder fs fn.1 with
         | none => True
         | some files => fn.2 ∉ files) →
      update_file_structure (update_file_structure fs p "create") p "delete"
        = fs := by
  intro fs p hnd hsafe
  cases hp : parsePath p with
  | none => simp only [update_file_structure, hp]
  | some fn =>
    obtain ⟨folderName, fileName⟩ := fn
    rw [hp] at hsafe
    simp only [update_file_structure, hp]
    simp only [show (("create" : String) = "create") = True by simp,
      show (("delete" : String) = "create") = False by simp,
      show (("delete" : String) = "delete") = True by simp,
      if_true, if_false]
    cases hl : lookupFolder fs folderName with
    | none =>
      simp only [add_file_to_folder, hl, remove_file_from_folder]
    | some files =>
      have hs2 : (match lookupFolder fs folderName with
        | none => True
        | some files => fileName ∉ files) := hsafe
      rw [hl] at hs2
      have hmem : fileName ∉ files := hs2
      simp only [add_file_to_folder, hl]
      rw [if_neg hmem]
      have hl2 := lookupFolder_setFolder fs folderName
        (files ++ [fileName]) files hl
      simp only [remove_file_from_folder, hl2]
      rw [if_pos (by simp)]
      have herase : (files ++ [fileName]).erase fileName = files := by
        rw [List.erase_append_right _ (by simpa using hmem)]
        simp
      rw [herase, setFolder_setFolder, setFolder_self fs folderName files hnd hl]

/-- Witness for the amended C7 at a concrete input. -/
theorem C7_amended_witness :
    update_file_structure
      (update_file_structure [("project1", [])] "project1/new.docx" "create")
      "project1/new.docx" "delete" = [("project1", [])] :=
  C7_amended_create_then_delete_restores_when_absent
    [("project1", [])] "project1/new.docx" (by decide)
    (by
      show ("new.docx" : String) ∉ ([] : List String)
      exact List.not_mem_nil _)

/-- C2 evidence of the code bug: `_process_file_request` normalizes nothing
for a *relative* request, so the traversal request `../secret.txt` — which
after normalization denotes `home/secret.txt`, outside the watched root
`home/watch` — is served with the file's bytes instead of an error. -/
theorem C2_code_bug_relative_traversal_escapes_root :
    processFileRequest
      (fun p => if p = ["home", "secret.txt"] then some "TOPSECRET" else none)
      ["home", "watch"] false ["..", "secret.txt"] =
      FileResponse.success ["home", "watch", "..", "secret.txt"] "TOPSECRET" 9
        "secret.txt" ∧
    normalizePath (["home", "watch"] ++ ["..", "secret.txt"]) =
      ["home", "secret.txt"] ∧
    ¬ List.isPrefixOf ["home", "watch"]
        (normalizePath (["home", "watch"] ++ ["..", "secret.txt"])) := by
  decide

/-- C10: `read_file` is total on existing paths — whatever the decoders and
parsers do (including every failure), it returns a string; and it fails
with `FileNotFoundError` exactly when the path does not exist. -/
theorem C10_read_file_total_on_existing_paths :
    ∀ (existsFs : String → Bool)
      (utf8Dec cp949Dec docxParse pdfParse : String → Option String)
      (filePath : String),
      (existsFs filePath = true →
        ∃ s, readFile existsFs utf8Dec cp949Dec docxParse pdfParse filePath =
          Except.ok s) ∧
      (existsFs filePath = false →
        readFile existsFs utf8Dec cp949Dec docxParse pdfParse filePath =
          Except.error "FileNotFoundError") := by
  intro existsFs utf8Dec cp949Dec docxParse pdfParse filePath
  constructor
  · intro h
    unfold readFile
    rw [if_neg (by simp [h])]
    by_cases h1 : extOf filePath = ".txt"
    · rw [if_pos h1]
      cases utf8Dec filePath with
      | some s => exact ⟨s, rfl⟩
      | none =>
        cases cp949Dec filePath with
        | some s => exact ⟨s, rfl⟩
        | none => exact ⟨"", rfl⟩
    · rw [if_neg h1]
      by_cases h2 : extOf filePath = ".docx"
      · rw [if_pos h2]
        cases docxParse filePath with
        | some s => exact ⟨s, rfl⟩
        | none => exact ⟨"", rfl⟩
      · rw [if_neg h2]
        by_cases h3 : extOf filePath = ".pdf"
        · rw [if_pos h3]
          cases pdfParse filePath with
          | some s => exact ⟨s, rfl⟩
          | none => exact ⟨"", rfl⟩
        · rw [if_neg h3]
          by_cases h4 : extOf filePath = ".hwp"
          · rw [if_pos h4]; exact ⟨"", rfl⟩
          · rw [if_neg h4]; exact ⟨"", rfl⟩
  · intro h
    unfold readFile
    rw [if_pos h]

/-- Witness for C10 at concrete inputs, discharging both hypotheses. -/
theorem C10_witness :
    (∃ s, readFile (fun _ => true) (fun _ => some "hello") (fun _ => none)
        (fun _ => none) (fun _ => none) "a.txt" = Except.ok s) ∧
    readFile (fun _ => false) (fun _ => some "hello") (fun _ => none)
        (fun _ => none) (fun _ => none) "a.txt" =
      Except.error "FileNotFoundError" :=
  ⟨(C10_read_file_total_on_existing_paths (fun _ => true)
      (fun _ => some "hello") (fun _ => none) (fun _ => none) (fun _ => none)
      "a.txt").1 rfl,
   (C10_read_file_total_on_existing_paths (fun _ => false)
      (fun _ => some "hello") (fun _ => none) (fun _ => none) (fun _ => none)
      "a.txt").2 rfl⟩

lemma search_data_subset_allowlist :
    ∀ (select : List Int → List DbRec → List DbRec)
      (collection : List DbRec) (q : List Int) (n : Nat) (pl : List String),
      (∀ qe2 l, ∀ r ∈ select qe2 l, r ∈ l) →
      ∀ r ∈ search_data select collection q n (some pl),
        r.file_path ∈ pl := by
  intro select collection q n pl hsel r hr
  unfold search_data at hr
  simp only [] at hr
  by_cases hpl : pl = []
  · rw [if_pos hpl] at hr; cases hr
  · rw [if_neg hpl] at hr
    have h1 : r ∈ select q
        (collection.filter (fun rr => pl.contains rr.file_path)) :=
      List.mem_of_mem_take hr
    have h2 := hsel q _ r h1
    have h3 := (List.mem_filter.mp h2).2
    simpa using h3

lemma buildChunkData_provenance :
    ∀ (getContent : String → Option (List Char)) (similar : List DbRec)
      (ci : ChunkData), ci ∈ buildChunkData getContent similar →
      ∃ r ∈ similar, ci.file_name = basename r.file_path := by
  intro g similar ci hci
  unfold buildChunkData at hci
  obtain ⟨r, hr, heq⟩ := List.mem_filterMap.mp hci
  refine ⟨r, hr, ?_⟩
  cases hx : extractChunkText g r.file_path r.start_idx r.end_idx with
  | none => simp [hx] at heq
  | some t =>
    simp only [hx] at heq
    by_cases ht : t = []
    · rw [if_pos ht] at heq; cases heq
    · rw [if_neg ht] at heq
      cases heq
      rfl

lemma searchChunksT_empty_allowlist :
    ∀ (qe : Option (List Int)) (select : List Int → List DbRec → List DbRec)
      (collection : List DbRec) (getContent : String → Option (List Char))
      (rerank : List (List Char) → Option (List (List Char))) (topN : Nat),
      searchChunksT qe [] select collection getContent rerank topN =
        ([], false) := by
  intro qe select collection g rr topN
  cases qe with
  | none => rfl
  | some q =>
    unfold searchChunksT
    simp only []
    by_cases hq : q = []
    · rw [if_pos hq]
    · rw [if_neg hq, if_true]

/-- C1: every file path appearing in search results is on the caller's
allow-list: `search_data` filters to `pathlist` and returns `[]` for an
absent or empty pathlist; `search_chunks` returns `[]` before querying for
an empty oracle allow-list, and every non-sentinel result item names (via
its basename) a path of the allow-list. -/
theorem C1_results_within_allowlist :
    ∀ (select : List Int → List DbRec → List DbRec)
      (collection : List DbRec) (q : List Int) (n : Nat) (pl : List String)
      (qe : Option (List Int)) (getContent : String → Option (List Char))
      (rerank : List (List Char) → Option (List (List Char))) (topN : Nat),
      (∀ qe2 l, ∀ r ∈ select qe2 l, r ∈ l) →
      (∀ r ∈ search_data select collection q n (some pl),
        r.file_path ∈ pl) ∧
      search_data select collection q n none = [] ∧
      search_data select collection q n (some []) = [] ∧
      searchChunksT qe [] select collection getContent rerank topN =
        ([], false) ∧
      (∀ out ∈ (searchChunksT qe pl select collection getContent rerank
          topN).1,
        out.file_name ≠ "" → ∃ p ∈ pl, out.file_name = basename p) := by
  intro select collection q n pl qe getContent rerank topN hsel
  refine ⟨search_data_subset_allowlist select collection q n pl hsel,
    rfl, by unfold search_data; simp only []; rw [if_true],
    searchChunksT_empty_allowlist qe select collection getContent rerank topN,
    ?_⟩
  intro out hout hne
  cases qe with
  | none => simp [searchChunksT] at hout
  | some q2 =>
    unfold searchChunksT at hout
    simp only [] at hout
    by_cases hq : q2 = []
    · rw [if_pos hq] at hout; simp at hout
    · rw [if_neg hq] at hout
      by_cases hpl : pl = []
      · rw [if_pos hpl] at hout; simp at hout
      · rw [if_neg hpl] at hout
        by_cases hs0 :
            search_data select collection q2 (topN * 2) (some pl) = []
        · rw [if_pos hs0] at hout
          have hsent := List.mem_singleton.mp hout
          subst hsent
          exact absurd rfl hne
        · rw [if_neg hs0] at hout
          by_cases hcd0 : buildChunkData getContent
              (search_data select collection q2 (topN * 2) (some pl)) = []
          · rw [if_pos hcd0] at hout; simp at hout
          · rw [if_neg hcd0] at hout
            cases hrr : rerank ((buildChunkData getContent
                (search_data select collection q2 (topN * 2)
                  (some pl))).map (fun c => c.text)) with
            | some reranked =>
              simp only [hrr] at hout
              obtain ⟨rt, _, hmap⟩ := List.mem_filterMap.mp hout
              cases hfind : (buildChunkData getContent
                  (search_data select collection q2 (topN * 2)
                    (some pl))).find? (fun ci => ci.text == rt) with
              | none => rw [hfind] at hmap; cases hmap
              | some ci =>
                rw [hfind] at hmap
                cases hmap
                have hci := List.mem_of_find?_eq_some hfind
                obtain ⟨r, hr, hbn⟩ := buildChunkData_provenance getContent
                  _ ci hci
                exact ⟨r.file_path, search_data_subset_allowlist select
                  collection q2 (topN * 2) pl hsel r hr, hbn⟩
            | none =>
              simp only [hrr] at hout
              obtain ⟨ci, hci, hmapeq⟩ := List.mem_map.mp hout
              have hci2 := List.mem_of_mem_take hci
              obtain ⟨r, hr, hbn⟩ := buildChunkData_provenance getContent
                _ ci hci2
              subst hmapeq
              exact ⟨r.file_path, search_data_subset_allowlist select
                collection q2 (topN * 2) pl hsel r hr, hbn⟩

/-- Witness for C1 at concrete inputs (identity ranking, one stored record,
the user authorized for its path). -/
theorem C1_witness :
    (∀ r ∈ search_data (fun _ l => l) [⟨"a/b.txt", 0, 2⟩] [1] 10
        (some ["a/b.txt"]), r.file_path ∈ ["a/b.txt"]) ∧
    search_data (fun _ l => l) [⟨"a/b.txt", 0, 2⟩] [1] 10 none = [] ∧
    search_data (fun _ l => l) [⟨"a/b.txt", 0, 2⟩] [1] 10 (some []) = [] ∧
    searchChunksT (some [1]) [] (fun _ l => l) [⟨"a/b.txt", 0, 2⟩]
      (fun _ => some "xy".toList) (fun _ => none) 3 = ([], false) ∧
    (∀ out ∈ (searchChunksT (some [1]) ["a/b.txt"] (fun _ l => l)
        [⟨"a/b.txt", 0, 2⟩] (fun _ => some "xy".toList) (fun _ => none)
        3).1,
      out.file_name ≠ "" →
        ∃ p ∈ ["a/b.txt"], out.file_name = basename p) :=
  C1_results_within_allowlist (fun _ l => l) [⟨"a/b.txt", 0, 2⟩] [1] 10
    ["a/b.txt"] (some [1]) (fun _ => some "xy".toList) (fun _ => none) 3
    (fun _ _ _ hr => hr)

lemma one_le_maxIterations : ∀ mode : String, 1 ≤ maxIterations mode := by
  intro mode
  unfold maxIterations
  by_cases h1 : mode = "normal"
  · rw [if_pos h1]
  · rw [if_neg h1]
    by_cases h2 : mode = "deep"
    · rw [if_pos h2]; decide
    · rw [if_neg h2]
      by_cases h3 : mode = "deeper"
      · rw [if_pos h3]; decide
      · rw [if_neg h3]; decide

lemma processLoop_no_access :
    ∀ (fuel : Nat) (mode : String) (llm : Nat → Option Decision)
      (searchFn : String → List OutChunk × Bool) (userInput : String)
      (it : Nat) (query ctx : String) (db : Bool) (calls : Nat),
      (∀ q2, searchFn q2 = ([], false)) →
      fuel + it = maxIterations mode → 1 ≤ fuel →
      ∃ ans calls2,
        processLoop mode llm searchFn userInput fuel it query ctx db calls =
          Except.ok (ans, db, calls2) ∧ calls + 1 ≤ calls2 ∧
        ((∃ i d, llm i = some d ∧ ans = d.llm_output) ∨
          ans = degradedAnswer ctx) := by
  intro fuel
  induction fuel with
  | zero =>
    intro mode llm searchFn userInput it query ctx db calls _ _ hpos
    exact absurd hpos (by decide)
  | succ n ih =>
    intro mode llm searchFn userInput it query ctx db calls hs hsum hpos
    simp only [processLoop, hs, ne_eq, not_true_eq_false, if_false,
      Bool.or_false]
    cases hllm : llm (it + 1) with
    | some d =>
      simp only []
      by_cases hmode : mode = "normal"
      · rw [if_pos hmode]
        exact ⟨d.llm_output, calls + 1, rfl, Nat.le_refl _,
          Or.inl ⟨it + 1, d, hllm, rfl⟩⟩
      · rw [if_neg hmode]
        by_cases hfin : it + 1 = maxIterations mode ∨
            d.continue_iterate = false
        · rw [if_pos hfin]
          exact ⟨d.llm_output, calls + 1, rfl, Nat.le_refl _,
            Or.inl ⟨it + 1, d, hllm, rfl⟩⟩
        · rw [if_neg hfin]
          have hn : 1 ≤ n := by
            rcases Nat.eq_zero_or_pos n with h0 | h1
            · exfalso
              apply hfin
              left
              omega
            · exact h1
          obtain ⟨ans, calls2, heq, hle, hor⟩ := ih mode llm searchFn
            userInput (it + 1)
            (if pyStripStr d.search_query = "" then userInput
             else pyStripStr d.search_query) ctx db (calls + 1) hs
            (by omega) hn
          exact ⟨ans, calls2, heq, by omega, hor⟩
    | none =>
      simp only []
      by_cases hfin : it + 1 = maxIterations mode
      · rw [if_pos hfin]
        exact ⟨degradedAnswer ctx, calls + 1, rfl, Nat.le_refl _, Or.inr rfl⟩
      · rw [if_neg hfin]
        have hn : 1 ≤ n := by
          rcases Nat.eq_zero_or_pos n with h0 | h1
          · exfalso; apply hfin; omega
          · exact h1
        obtain ⟨ans, calls2, heq, hle, hor⟩ := ih mode llm searchFn
          userInput (it + 1) query ctx db (calls + 1) hs (by omega) hn
        exact ⟨ans, calls2, heq, by omega, hor⟩

/-- C4 counterexample: for a user whose oracle allow-list is empty (here
wired through the real `search_chunks` embedding with `pathlist = []`), the
agent does *not* return a "no access" message and does not exit before
consulting the LLM: it returns exactly the LLM's `llm_output` (`"ANSWER"`)
after one structured-LLM call, with the vector index never queried. -/
theorem C4_counterexample_llm_answer_returned :
    process "normal" (fun _ => some ⟨"ANSWER", false, ""⟩)
      (fun _ => searchChunksT (some [1]) [] (fun _ l => l) []
        (fun _ => none) (fun _ => none) 3)
      "question" = Except.ok ("ANSWER", false, 1) := rfl

/-- C4 amended: with an empty oracle allow-list, `search_chunks` returns no
results and never queries the vector index, but the agent's iteration loop
does not exit early: the structured LLM is consulted at least once and the
agent returns the LLM's answer (or the degraded fallback when the LLM
fails on the final iteration) — the "no access" text is only a printed
diagnostic inside the retriever, not the returned message. -/
theorem C4_amended_empty_allowlist_still_consults_llm :
    ∀ (mode : String) (llm : Nat → Option Decision) (userInput : String)
      (qe : Option (List Int)) (select : List Int → List DbRec → List DbRec)
      (collection : List DbRec) (getContent : String → Option (List Char))
      (rerank : List (List Char) → Option (List (List Char))) (topN : Nat),
      searchChunksT qe [] select collection getContent rerank topN =
        ([], false) ∧
      (∀ searchFn : String → List OutChunk × Bool,
        (∀ q2, searchFn q2 = ([], false)) →
        ∃ ans calls,
          process mode llm searchFn userInput =
            Except.ok (ans, false, calls) ∧ 1 ≤ calls ∧
          ((∃ i d, llm i = some d ∧ ans = d.llm_output) ∨
            ans = degradedAnswer "")) := by
  intro mode llm userInput qe select collection getContent rerank topN
  constructor
  · exact searchChunksT_empty_allowlist qe select collection getContent
      rerank topN
  · intro searchFn hs
    obtain ⟨ans, calls2, heq, hle, hor⟩ := processLoop_no_access
      (maxIterations mode) mode llm searchFn userInput 0 userInput "" false 0
      hs (by omega) (one_le_maxIterations mode)
    exact ⟨ans, calls2, heq, by omega, hor⟩

/-- Witness for the amended C4 at concrete inputs. -/
theorem C4_amended_witness :
    ∃ ans calls,
      process "normal" (fun _ => some ⟨"OK", false, ""⟩)
        (fun _ => ([], false)) "q" = Except.ok (ans, false, calls) ∧
      1 ≤ calls ∧
      ((∃ i d, (fun _ : Nat => some (⟨"OK", false, ""⟩ : Decision)) i =
          some d ∧ ans = d.llm_output) ∨ ans = degradedAnswer "") :=
  (C4_amended_empty_allowlist_still_consults_llm "normal"
    (fun _ => some ⟨"OK", false, ""⟩) "q" none (fun _ l => l) []
    (fun _ => none) (fun _ => none) 3).2
    (fun _ => ([], false)) (fun _ => rfl)

end DbSorcerer
